import Mathlib

/-!
Verification of the `sam_tags` repository: a shallow embedding of
`src/sam_tags/sam_tag.py` (the `sam_tag` decorator and its helpers) and of the
catalog of standard tag codes in `src/sam_tags/standard_tags.py`, together
with theorems settling the specification claims about the validator.

The embedding models a decorated enumeration declaration as a `TagDecl`:
the class name, two booleans recording the results of the Python
`issubclass(enumeration, Enum)` and `issubclass(enumeration, str)` probes,
and the ordered `(member-name, value)` pairs of `__members__` (aliases
included, in definition order).
-/

set_option autoImplicit false

namespace SamTags

/-- The string values of the `StandardTag` enumeration in
`src/sam_tags/standard_tags.py`, in definition order.  Each member's value is
its own two-character code. -/
def standardTagValues : List String :=
  ["AM", "AS", "BC", "BQ", "BZ", "CB", "CC", "CG", "CM", "CO", "CP", "CQ",
   "CR", "CS", "CT", "CY", "E2", "FI", "FS", "FZ", "GC", "GQ", "GS", "H0",
   "H1", "H2", "HI", "IH", "LB", "MC", "MD", "MF", "MI", "ML", "MM", "MQ",
   "NH", "NM", "OA", "OC", "OP", "OQ", "OX", "PG", "PQ", "PT", "PU", "Q2",
   "QT", "QX", "R2", "RG", "RT", "RX", "S2", "SA", "SM", "SQ", "TC", "TS",
   "U2", "UQ"]

/-- `TAG_REGEX.match(s) is not None` for `TAG_REGEX = re.compile(r"^[A-Za-z][A-Za-z0-9]$")`.

Python's `re.match` anchors at the start of the string, `[A-Za-z]` and
`[A-Za-z0-9]` are the ASCII letter and alphanumeric classes
(`Char.isAlpha` / `Char.isAlphanum` in Lean are exactly these ASCII ranges),
and `$` matches at the end of the string *or just before a newline at the end
of the string*.  Hence a three-character string whose third character is a
newline also matches. -/
def tagRegexMatch (s : String) : Bool :=
  match s.toList with
  | [c0, c1] => c0.isAlpha && c1.isAlphanum
  | [c0, c1, c2] => c0.isAlpha && c1.isAlphanum && (c2 = '\n')
  | _ => false

/-- A character is cased for the purposes of Python's `str.islower`.
For the ASCII strings this development reasons about, the cased characters
are exactly the letters. -/
def pyIsCased (c : Char) : Bool :=
  c.isUpper || c.isLower

/-- Python's `str.islower()`: true iff the string has at least one cased
character and every cased character is lowercase. -/
def pyIslower (s : String) : Bool :=
  s.toList.any pyIsCased && s.toList.all (fun c => !pyIsCased c || c.isLower)

/-- Python's `s.startswith(c)` for a one-character prefix `c`: true iff `s`
is nonempty and its first character is `c`. -/
def startsWithChar (s : String) (c : Char) : Bool :=
  match s.toList with
  | [] => false
  | c0 :: _ => c0 = c

/-- `_is_valid_local_tag` from `src/sam_tags/sam_tag.py`:
`tag.startswith("X") or tag.startswith("Y") or tag.startswith("Z") or tag.islower()`. -/
def is_valid_local_tag (tag : String) : Bool :=
  startsWithChar tag 'X' || startsWithChar tag 'Y' || startsWithChar tag 'Z' || pyIslower tag

/-- `_validate_sam_tag` from `src/sam_tags/sam_tag.py`, applied to a member's
string value.  (The Python code interpolates the member itself with
`f"  {tag}: ..."`; for a `StrEnum` member — the only kind that reaches this
function, given the `issubclass(enumeration, str)` precondition — `str(tag)`
is the member's value.)  Returns the error message of the first failing
check, or `none`: the function returns as soon as one check fails, so a
member yields at most one message. -/
def validate_sam_tag (strict : Bool) (v : String) : Option String :=
  if !tagRegexMatch v then
    some ("  " ++ v ++ ": SAM tags must be two-character alphanumeric strings.")
  else if standardTagValues.contains v then
    some ("  " ++ v ++ ": Locally-defined SAM tags may not conflict with a predefined standard tag.")
  else if strict && !is_valid_local_tag v then
    some ("  " ++ v ++ ": Locally-defined SAM tags must be lowercase or start with X, Y, or Z.")
  else
    none

/-- A decorated enumeration declaration, as seen by `validate_sam_tag_enum`:
its class name, the results of the two `issubclass` probes, and the
`(member-name, value)` pairs of `__members__` in definition order (aliases
included: in a Python `Enum`, a later member whose value repeats an earlier
one is an alias, and `__members__` still lists it under its own name). -/
structure TagDecl where
  name : String
  isEnum : Bool
  isStr : Bool
  members : List (String × String)
deriving Repr, DecidableEq

/-- `sep.join(xs)` for Python. -/
def joinSep (sep : String) : List String → String
  | [] => ""
  | [x] => x
  | x :: xs => x ++ sep ++ joinSep sep xs

/-- `"\n".join(xs)`. -/
def lines (xs : List String) : String :=
  joinSep "\n" xs

/-- Lexicographic `≤` on character lists, comparing code points: the order
Python uses to compare strings. -/
def charListLe : List Char → List Char → Bool
  | [], _ => true
  | _ :: _, [] => false
  | c :: cs, d :: ds => if c < d then true else if d < c then false else charListLe cs ds

/-- Lexicographic `≤` on strings by code point. -/
def stringLe (x y : String) : Bool :=
  charListLe x.toList y.toList

/-- Insert a string into a sorted list, before the first element it is `≤`
to (a stable insertion). -/
def insertSorted (x : String) : List String → List String
  | [] => [x]
  | y :: ys => if stringLe x y then x :: y :: ys else y :: insertSorted x ys

/-- Python's `sorted` on a list of strings: ascending lexicographic order by
code point, stable. -/
def sortStrings : List String → List String
  | [] => []
  | x :: xs => insertSorted x (sortStrings xs)

/-- `values_to_names[v]` in `_validate_unique_sam_tags`: the names of the
members whose value is `v`, in definition order. -/
def namesForValue (members : List (String × String)) (v : String) : List String :=
  (members.filter (fun p => p.2 = v)).map (fun p => p.1)

/-- `value_counts[v]` in `_validate_unique_sam_tags`: how many members
(aliases included) carry the value `v`. -/
def valueCount (members : List (String × String)) (v : String) : Nat :=
  (members.filter (fun p => p.2 = v)).length

/-- Helper for `dedupFirst`: keep the elements not seen before, threading the
set of values already seen. -/
def dedupFirstAux (seen : List String) : List String → List String
  | [] => []
  | v :: rest =>
    if seen.contains v then dedupFirstAux seen rest
    else v :: dedupFirstAux (v :: seen) rest

/-- The distinct elements of a list, keeping the first occurrence of each:
the key order of a Python `dict`/`Counter` built by insertion. -/
def dedupFirst (l : List String) : List String :=
  dedupFirstAux [] l

/-- The `duplicates` list built by `_validate_unique_sam_tags`: one entry per
distinct value held by more than one member, in first-occurrence order of the
value; the entry lists the member names sharing the value, sorted, then the
value itself in single quotes. -/
def duplicateMessages (members : List (String × String)) : List String :=
  (dedupFirst (members.map (fun p => p.2))).filterMap (fun v =>
    if 1 < valueCount members v then
      some ("  " ++ joinSep ", " (sortStrings (namesForValue members v)) ++ ": '" ++ v ++ "'")
    else
      none)

/-- `_validate_unique_sam_tags` from `src/sam_tags/sam_tag.py`: if any value
is duplicated, it raises a `ValueError` of its own (and the per-member checks
never run); modelled as returning the error it raises, if any. -/
def validate_unique_sam_tags (d : TagDecl) : Option String :=
  let dups := duplicateMessages d.members
  if dups.length > 0 then
    some (d.name ++ ": The following SAM tags have duplicate values:\n" ++ lines dups)
  else
    none

/-- Helper for `canonicalMembers`: keep the members whose value has not
occurred earlier, threading the set of values already seen. -/
def canonicalAux (seen : List String) : List (String × String) → List (String × String)
  | [] => []
  | p :: rest =>
    if seen.contains p.2 then canonicalAux seen rest
    else p :: canonicalAux (p.2 :: seen) rest

/-- Iteration `for tag in enumeration` yields only canonical members: one per
distinct value, the first member declared with that value (a later member
repeating an earlier value is an alias and is skipped by iteration). -/
def canonicalMembers (l : List (String × String)) : List (String × String) :=
  canonicalAux [] l

/-- The outcome of applying the decorator: a `TypeError` (from the two
structural `issubclass` probes) or a `ValueError` (from
`_validate_unique_sam_tags` or from the accumulated per-member messages). -/
inductive PyError where
  | typeError (msg : String)
  | valueError (msg : String)
deriving Repr, DecidableEq

deriving instance DecidableEq for Except

set_option linter.unusedVariables false in
/-- `validate_sam_tag_enum` from `src/sam_tags/sam_tag.py` (the closure built
by `sam_tag`), as a function of the two decorator flags and the declaration.

Note that `permit_standard_collisions` is captured by the closure but never
consulted anywhere in its body: `_validate_sam_tag` is called with
`strict=strict` only, and the standard-collision check inside it is
unconditional. -/
def validate_sam_tag_enum (strict : Bool) (permit_standard_collisions : Bool)
    (d : TagDecl) : Except PyError TagDecl :=
  if !d.isEnum then
    .error (.typeError (d.name ++ ": The `sam_tag` decorator may only be applied to `Enum` subclasses."))
  else if !d.isStr then
    .error (.typeError (d.name ++ ": SAM tag classes should inherit from `StrEnum` or mix in `str`."))
  else
    match validate_unique_sam_tags d with
    | some msg => .error (.valueError msg)
    | none =>
      let errs := (canonicalMembers d.members).filterMap (fun p => validate_sam_tag strict p.2)
      if errs.length > 0 then
        .error (.valueError (d.name ++ ": The following SAM tags are invalid:\n" ++ lines errs))
      else
        .ok d

/-- From the spec's words: a value matches `^[A-Za-z][A-Za-z0-9]$` in the
mathematical sense — exactly two characters, the first alphabetic, the second
alphanumeric.  (This is the shape the spec ascribes to `TagCode`; it is
strictly stronger than `tagRegexMatch`, which also accepts a trailing
newline.) -/
def specShapeMatch (v : String) : Bool :=
  match v.toList with
  | [c0, c1] => c0.isAlpha && c1.isAlphanum
  | _ => false

/-- From the spec's words, amended: the values claimed to fail the shape rule
— length not 2 (except the two-character tags followed by one trailing
newline, which Python's `$` anchor accepts), or length 2 with a
non-alphabetic first character. -/
def violatesClaimedShape (v : String) : Bool :=
  match v.toList with
  | [c0, _] => !c0.isAlpha
  | [c0, c1, c2] => !(c0.isAlpha && c1.isAlphanum && c2 = '\n')
  | _ => true

section Lemmas

/-- A value satisfying the spec's exact two-character shape also satisfies the
code's regex check. -/
theorem tagRegexMatch_of_specShape {v : String} (h : specShapeMatch v = true) :
    tagRegexMatch v = true := by
  unfold specShapeMatch at h
  unfold tagRegexMatch
  revert h
  cases v.toList with
  | nil => simp
  | cons c0 rest =>
    cases rest with
    | nil => simp
    | cons c1 rest2 =>
      cases rest2 with
      | nil => exact fun h => h
      | cons c2 rest3 => simp

/-- A value in the claim's amended bad-shape set fails the code's regex
check. -/
theorem not_tagRegexMatch_of_violatesClaimedShape {v : String}
    (h : violatesClaimedShape v = true) : tagRegexMatch v = false := by
  unfold violatesClaimedShape at h
  unfold tagRegexMatch
  revert h
  cases v.toList with
  | nil => intro _; rfl
  | cons c0 rest =>
    cases rest with
    | nil => intro _; rfl
    | cons c1 rest2 =>
      cases rest2 with
      | nil =>
        intro h
        simp only [Bool.not_eq_true'] at h
        simp [h]
      | cons c2 rest3 =>
        cases rest3 with
        | nil =>
          intro h
          simp only [Bool.not_eq_true'] at h
          exact h
        | cons c3 rest4 => intro _; rfl

/-- `List.contains` agrees with membership on strings. -/
theorem contains_eq_true_iff {l : List String} {a : String} :
    l.contains a = true ↔ a ∈ l := by
  simp

/-- `List.contains` is false exactly off the list. -/
theorem contains_eq_false_iff {l : List String} {a : String} :
    l.contains a = false ↔ a ∉ l := by
  rw [← Bool.not_eq_true, not_iff_not]
  simp

/-- Membership in `dedupFirstAux seen l`: the elements of `l` not in
`seen`. -/
theorem mem_dedupFirstAux {a : String} :
    ∀ (l : List String) (seen : List String),
      a ∈ dedupFirstAux seen l ↔ a ∈ l ∧ a ∉ seen := by
  intro l
  induction l with
  | nil => intro seen; simp [dedupFirstAux]
  | cons v rest ih =>
    intro seen
    unfold dedupFirstAux
    by_cases hv : v ∈ seen
    · rw [if_pos (contains_eq_true_iff.mpr hv)]
      rw [ih seen]
      constructor
      · rintro ⟨h1, h2⟩
        exact ⟨List.mem_cons_of_mem _ h1, h2⟩
      · rintro ⟨h1, h2⟩
        rcases List.mem_cons.mp h1 with h | h
        · subst h; exact absurd hv h2
        · exact ⟨h, h2⟩
    · rw [if_neg (fun hc => hv (contains_eq_true_iff.mp hc))]
      rw [List.mem_cons, ih (v :: seen)]
      constructor
      · rintro (h | ⟨h1, h2⟩)
        · subst h; exact ⟨List.mem_cons_self _ _, hv⟩
        · refine ⟨List.mem_cons_of_mem _ h1, fun hc => h2 (List.mem_cons_of_mem _ hc)⟩
      · rintro ⟨h1, h2⟩
        by_cases hav : a = v
        · exact Or.inl hav
        · have ha : a ∈ rest := by
            rcases List.mem_cons.mp h1 with h | h
            · exact absurd h hav
            · exact h
          refine Or.inr ⟨ha, fun hc => ?_⟩
          rcases List.mem_cons.mp hc with hc | hc
          · exact hav hc
          · exact h2 hc

/-- Membership in `dedupFirst`. -/
theorem mem_dedupFirst {a : String} {l : List String} :
    a ∈ dedupFirst l ↔ a ∈ l := by
  unfold dedupFirst
  rw [mem_dedupFirstAux]
  simp

/-- `dedupFirstAux` yields no duplicates. -/
theorem nodup_dedupFirstAux :
    ∀ (l seen : List String), (dedupFirstAux seen l).Nodup := by
  intro l
  induction l with
  | nil => intro seen; simp [dedupFirstAux]
  | cons v rest ih =>
    intro seen
    unfold dedupFirstAux
    by_cases hv : v ∈ seen
    · rw [if_pos (contains_eq_true_iff.mpr hv)]
      exact ih seen
    · rw [if_neg (fun hc => hv (contains_eq_true_iff.mp hc))]
      refine List.nodup_cons.mpr ⟨?_, ih (v :: seen)⟩
      intro hmem
      exact (mem_dedupFirstAux rest (v :: seen)).mp hmem |>.2 (List.mem_cons_self _ _)

/-- `dedupFirst` yields no duplicates. -/
theorem nodup_dedupFirst {l : List String} : (dedupFirst l).Nodup :=
  nodup_dedupFirstAux l []

/-- The elements kept by `dedupFirstAux` appear in first-occurrence order: of
two elements of the result, the earlier one first occurs in the scanned list
strictly before the later one. -/
theorem pairwise_indexOf_dedupFirstAux :
    ∀ (l seen : List String),
      (dedupFirstAux seen l).Pairwise (fun a b => l.indexOf a < l.indexOf b) := by
  intro l
  induction l with
  | nil => intro seen; simp [dedupFirstAux]
  | cons v rest ih =>
    intro seen
    unfold dedupFirstAux
    by_cases hv : v ∈ seen
    · rw [if_pos (contains_eq_true_iff.mpr hv)]
      refine (ih seen).imp_of_mem ?_
      intro a b ha hb hab
      have haseen := (mem_dedupFirstAux rest seen).mp ha
      have hbseen := (mem_dedupFirstAux rest seen).mp hb
      have hav : v ≠ a := fun h => haseen.2 (h ▸ hv)
      have hbv : v ≠ b := fun h => hbseen.2 (h ▸ hv)
      rw [List.indexOf_cons_ne rest hav, List.indexOf_cons_ne rest hbv]
      exact Nat.succ_lt_succ hab
    · rw [if_neg (fun hc => hv (contains_eq_true_iff.mp hc))]
      refine List.pairwise_cons.mpr ⟨?_, ?_⟩
      · intro b hb
        have hbmem := (mem_dedupFirstAux rest (v :: seen)).mp hb
        have hbv : v ≠ b := fun h => hbmem.2 (h ▸ List.mem_cons_self v seen)
        rw [List.indexOf_cons_self, List.indexOf_cons_ne rest hbv]
        exact Nat.succ_pos _
      · refine (ih (v :: seen)).imp_of_mem ?_
        intro a b ha hb hab
        have haseen := (mem_dedupFirstAux rest (v :: seen)).mp ha
        have hbseen := (mem_dedupFirstAux rest (v :: seen)).mp hb
        have hav : v ≠ a := fun h => haseen.2 (h ▸ List.mem_cons_self v seen)
        have hbv : v ≠ b := fun h => hbseen.2 (h ▸ List.mem_cons_self v seen)
        rw [List.indexOf_cons_ne rest hav, List.indexOf_cons_ne rest hbv]
        exact Nat.succ_lt_succ hab

/-- `dedupFirst` lists values in first-occurrence order. -/
theorem pairwise_indexOf_dedupFirst {l : List String} :
    (dedupFirst l).Pairwise (fun a b => l.indexOf a < l.indexOf b) :=
  pairwise_indexOf_dedupFirstAux l []

/-- On a list whose values are pairwise distinct and disjoint from `seen`,
`canonicalAux` keeps every member. -/
theorem canonicalAux_eq_self :
    ∀ (l : List (String × String)) (seen : List String),
      (∀ p ∈ l, p.2 ∉ seen) →
      l.Pairwise (fun a b => a.2 ≠ b.2) →
      canonicalAux seen l = l := by
  intro l
  induction l with
  | nil => intro seen _ _; rfl
  | cons p rest ih =>
    intro seen hseen hpw
    unfold canonicalAux
    have hp : p.2 ∉ seen := hseen p (List.mem_cons_self _ _)
    rw [if_neg (fun hc => hp (contains_eq_true_iff.mp hc))]
    rcases List.pairwise_cons.mp hpw with ⟨hhead, htail⟩
    congr 1
    refine ih (p.2 :: seen) ?_ htail
    intro q hq hmem
    rcases List.mem_cons.mp hmem with h | h
    · exact hhead q hq h.symm
    · exact hseen q (List.mem_cons_of_mem _ hq) h

/-- On a declaration without duplicated values, iteration sees every
member. -/
theorem canonicalMembers_eq_self {l : List (String × String)}
    (h : l.Pairwise (fun a b => a.2 ≠ b.2)) :
    canonicalMembers l = l :=
  canonicalAux_eq_self l [] (fun _ _ hc => (List.not_mem_nil _) hc) h

/-- With pairwise-distinct values, no value is carried by two members. -/
theorem valueCount_le_one {l : List (String × String)}
    (h : l.Pairwise (fun a b => a.2 ≠ b.2)) (v : String) :
    valueCount l v ≤ 1 := by
  induction l with
  | nil => simp [valueCount]
  | cons p rest ih =>
    rcases List.pairwise_cons.mp h with ⟨hhead, htail⟩
    unfold valueCount
    by_cases hp : p.2 = v
    · rw [List.filter_cons_of_pos (by simp [hp])]
      have hnone : rest.filter (fun q => q.2 = v) = [] := by
        rw [List.filter_eq_nil_iff]
        intro q hq
        simp only [decide_eq_true_iff]
        intro hqv
        exact hhead q hq (hp ▸ hqv ▸ rfl)
      rw [hnone]
      simp
    · rw [List.filter_cons_of_neg (by simp [hp])]
      exact ih htail

/-- A value carried by at least one member occurs among the values. -/
theorem mem_values_of_valueCount_pos {l : List (String × String)} {v : String}
    (h : 0 < valueCount l v) : v ∈ l.map (fun p => p.2) := by
  unfold valueCount at h
  rcases List.exists_mem_of_length_pos h with ⟨q, hq⟩
  rcases List.mem_filter.mp hq with ⟨hql, hqv⟩
  simp only [decide_eq_true_iff] at hqv
  exact hqv ▸ List.mem_map_of_mem _ hql

/-- If some pair of members shares a value, some value has count above
one. -/
theorem exists_dup_value_of_not_pairwise {l : List (String × String)}
    (h : ¬ l.Pairwise (fun a b => a.2 ≠ b.2)) :
    ∃ v, 1 < valueCount l v := by
  induction l with
  | nil => exact absurd List.Pairwise.nil h
  | cons p rest ih =>
    rw [List.pairwise_cons] at h
    push_neg at h
    by_cases hhead : ∀ q ∈ rest, p.2 ≠ q.2
    · rcases h hhead with htail
      rcases ih htail with ⟨v, hv⟩
      refine ⟨v, lt_of_lt_of_le hv ?_⟩
      unfold valueCount
      by_cases hp : p.2 = v
      · rw [List.filter_cons_of_pos (by simp [hp])]
        exact Nat.le_succ _
      · rw [List.filter_cons_of_neg (by simp [hp])]
    · push_neg at hhead
      rcases hhead with ⟨q, hq, hqv⟩
      refine ⟨p.2, ?_⟩
      unfold valueCount
      rw [List.filter_cons_of_pos (by simp)]
      have hqf : q ∈ rest.filter (fun r => r.2 = p.2) :=
        List.mem_filter.mpr ⟨hq, by simp [hqv.symm]⟩
      have : 0 < (rest.filter (fun r => r.2 = p.2)).length :=
        List.length_pos.mpr (fun hnil => by rw [hnil] at hqf; exact (List.not_mem_nil _) hqf)
      simp only [List.length_cons]
      omega

/-- A `filterMap` whose function is an `if … then some … else none` is a
`filter` followed by a `map`. -/
theorem filterMap_ite_eq_filter_map {α β : Type} (P : α → Prop) [DecidablePred P]
    (f : α → β) :
    ∀ l : List α,
      l.filterMap (fun a => if P a then some (f a) else none) =
        (l.filter (fun a => decide (P a))).map f := by
  intro l
  induction l with
  | nil => rfl
  | cons a rest ih =>
    by_cases ha : P a <;> simp [List.filterMap_cons, ha, ih]

/-- With pairwise-distinct values, `_validate_unique_sam_tags` finds
nothing. -/
theorem duplicateMessages_eq_nil {l : List (String × String)}
    (h : l.Pairwise (fun a b => a.2 ≠ b.2)) :
    duplicateMessages l = [] := by
  unfold duplicateMessages
  rw [List.filterMap_eq_nil_iff]
  intro v _
  rw [if_neg]
  intro hlt
  exact absurd (valueCount_le_one h v) (by omega)

/-- A duplicated value makes `_validate_unique_sam_tags` report it. -/
theorem duplicateMessages_ne_nil {l : List (String × String)} {v : String}
    (h : 1 < valueCount l v) :
    duplicateMessages l ≠ [] := by
  unfold duplicateMessages
  intro hnil
  rw [List.filterMap_eq_nil_iff] at hnil
  have hv : v ∈ dedupFirst (l.map (fun p => p.2)) :=
    mem_dedupFirst.mpr (mem_values_of_valueCount_pos (by omega))
  have := hnil v hv
  rw [if_pos h] at this
  exact Option.noConfusion this

/-- On a structurally sound declaration without duplicated values, the
decorator reduces to the per-member pass over the declared members. -/
theorem validate_enum_of_pairwise (strict permit : Bool) (name : String)
    (members : List (String × String))
    (hnd : members.Pairwise (fun a b => a.2 ≠ b.2)) :
    validate_sam_tag_enum strict permit ⟨name, true, true, members⟩ =
      (if (members.filterMap (fun p => validate_sam_tag strict p.2)).length > 0 then
        .error (.valueError (name ++ ": The following SAM tags are invalid:\n" ++
          lines (members.filterMap (fun p => validate_sam_tag strict p.2))))
      else .ok ⟨name, true, true, members⟩) := by
  unfold validate_sam_tag_enum validate_unique_sam_tags
  simp only [duplicateMessages_eq_nil hnd]
  simp only [canonicalMembers_eq_self hnd]
  simp

/-- On a structurally sound declaration with a duplicated value, the decorator
fails with the duplicate-values error alone. -/
theorem validate_enum_of_dup (strict permit : Bool) (name : String)
    (members : List (String × String)) {v : String}
    (hdup : 1 < valueCount members v) :
    validate_sam_tag_enum strict permit ⟨name, true, true, members⟩ =
      .error (.valueError (name ++ ": The following SAM tags have duplicate values:\n" ++
        lines (duplicateMessages members))) := by
  unfold validate_sam_tag_enum validate_unique_sam_tags
  have hne := duplicateMessages_ne_nil hdup
  have hlen : (duplicateMessages members).length > 0 := List.length_pos.mpr hne
  simp only [hlen]
  simp

end Lemmas

section Claims

/-- Claim C1 (code bug): for every code in the standard catalog, a declaration
carrying that code is rejected with the standard-collision message regardless
of `permit_standard_collisions` — `sam_tag` accepts the flag but never
consults it, so `permit_standard_collisions=True` does not make the
declaration succeed as the spec claims. -/
theorem standard_code_rejected_regardless_of_permit_flag
    (v : String) (hv : v ∈ standardTagValues) (strict permit : Bool) :
    validate_sam_tag_enum strict permit ⟨"BadTag", true, true, [("XB", v)]⟩ =
      .error (.valueError ("BadTag: The following SAM tags are invalid:\n" ++
        ("  " ++ v ++ ": Locally-defined SAM tags may not conflict with a predefined standard tag."))) := by
  have h : ∀ w ∈ standardTagValues, ∀ s p : Bool,
      validate_sam_tag_enum s p ⟨"BadTag", true, true, [("XB", w)]⟩ =
        .error (.valueError ("BadTag: The following SAM tags are invalid:\n" ++
          ("  " ++ w ++ ": Locally-defined SAM tags may not conflict with a predefined standard tag."))) := by
    decide
  exact h v hv strict permit

/-- Witness for C1: the standard code "AM" is rejected even with
`permit_standard_collisions=True`. -/
theorem standard_code_rejected_regardless_of_permit_flag_witness :
    validate_sam_tag_enum true true ⟨"BadTag", true, true, [("XB", "AM")]⟩ =
      .error (.valueError ("BadTag: The following SAM tags are invalid:\n" ++
        ("  " ++ "AM" ++ ": Locally-defined SAM tags may not conflict with a predefined standard tag."))) :=
  standard_code_rejected_regardless_of_permit_flag "AM" (by decide) true true

/-- Counterexample to claim C2 as stated: a declaration holding both a
duplicated value and a member with a shape violation is rejected with the
duplicate-values error alone — `_validate_unique_sam_tags` raises before the
per-member checks run, so the two categories are never reported together. -/
theorem duplicates_reported_without_member_violations :
    validate_sam_tag_enum true false
        ⟨"BadTag", true, true, [("XA", "xx"), ("XB", "xx"), ("XC", "abc")]⟩ =
      .error (.valueError "BadTag: The following SAM tags have duplicate values:\n  XA, XB: 'xx'") := by
  decide

/-- Claim C2 (amended): within the per-member category all violations across
all members are collected and reported together in one aggregate failure, and
validation does not stop at the first failing member; but the
whole-declaration uniqueness check runs first and, when any value is
duplicated, raises its own aggregate failure without running the per-member
checks. -/
theorem violations_collected_per_category (strict permit : Bool) (name : String)
    (members : List (String × String)) :
    (members.Pairwise (fun a b => a.2 ≠ b.2) →
      ∃ errs : List String,
        (∀ m ∈ members, ∀ msg, validate_sam_tag strict m.2 = some msg → msg ∈ errs) ∧
        (∀ msg ∈ errs, ∃ m ∈ members, validate_sam_tag strict m.2 = some msg) ∧
        (errs = [] →
          validate_sam_tag_enum strict permit ⟨name, true, true, members⟩ =
            .ok ⟨name, true, true, members⟩) ∧
        (errs ≠ [] →
          validate_sam_tag_enum strict permit ⟨name, true, true, members⟩ =
            .error (.valueError (name ++ ": The following SAM tags are invalid:\n" ++ lines errs)))) ∧
    (¬ members.Pairwise (fun a b => a.2 ≠ b.2) →
      ∃ dups : List String, dups ≠ [] ∧
        validate_sam_tag_enum strict permit ⟨name, true, true, members⟩ =
          .error (.valueError (name ++ ": The following SAM tags have duplicate values:\n" ++ lines dups))) := by
  constructor
  · intro hnd
    refine ⟨members.filterMap (fun p => validate_sam_tag strict p.2), ?_, ?_, ?_, ?_⟩
    · intro m hm msg hmsg
      exact List.mem_filterMap.mpr ⟨m, hm, hmsg⟩
    · intro msg hmsg
      exact List.mem_filterMap.mp hmsg
    · intro hnil
      rw [validate_enum_of_pairwise strict permit name members hnd, hnil]
      simp
    · intro hne
      rw [validate_enum_of_pairwise strict permit name members hnd,
        if_pos (List.length_pos.mpr hne)]
  · intro hnp
    rcases exists_dup_value_of_not_pairwise hnp with ⟨v, hv⟩
    exact ⟨duplicateMessages members, duplicateMessages_ne_nil hv,
      validate_enum_of_dup strict permit name members hv⟩

/-- Witness for C2 (amended) at a declaration with two shape-violating
members and no duplicate values. -/
theorem violations_collected_per_category_witness :
    ∃ errs : List String,
      (∀ m ∈ [("XB", "1a"), ("XC", "1b")], ∀ msg,
        validate_sam_tag true m.2 = some msg → msg ∈ errs) ∧
      (∀ msg ∈ errs, ∃ m ∈ [("XB", "1a"), ("XC", "1b")],
        validate_sam_tag true m.2 = some msg) ∧
      (errs = [] →
        validate_sam_tag_enum true false ⟨"BadTag", true, true, [("XB", "1a"), ("XC", "1b")]⟩ =
          .ok ⟨"BadTag", true, true, [("XB", "1a"), ("XC", "1b")]⟩) ∧
      (errs ≠ [] →
        validate_sam_tag_enum true false ⟨"BadTag", true, true, [("XB", "1a"), ("XC", "1b")]⟩ =
          .error (.valueError ("BadTag: The following SAM tags are invalid:\n" ++ lines errs))) :=
  (violations_collected_per_category true false "BadTag" [("XB", "1a"), ("XC", "1b")]).1
    (by decide)

/-- Counterexample to claim C3 as stated: the three-character value "ab\n"
(length ≠ 2) is accepted outright, because Python's `$` also matches just
before a trailing newline; no InvalidShape violation arises. -/
theorem newline_value_escapes_shape_check :
    validate_sam_tag_enum true false ⟨"CustomTag", true, true, [("XB", "ab\n")]⟩ =
      .ok ⟨"CustomTag", true, true, [("XB", "ab\n")]⟩ := by
  decide

/-- Claim C3 (amended): every member whose value's length is not 2 — except
the length-3 values of the form letter, alphanumeric, trailing newline, which
the regex accepts — or whose length is 2 with a non-alphabetic first
character, yields the shape-violation message, and a declaration without
duplicated values containing such a member is rejected with an aggregate
error carrying that message. -/
theorem claimed_bad_shape_reported (strict permit : Bool) (name n v : String)
    (members : List (String × String))
    (hmem : (n, v) ∈ members)
    (hnd : members.Pairwise (fun a b => a.2 ≠ b.2))
    (hbad : violatesClaimedShape v = true) :
    ∃ errs : List String,
      ("  " ++ v ++ ": SAM tags must be two-character alphanumeric strings.") ∈ errs ∧
      validate_sam_tag_enum strict permit ⟨name, true, true, members⟩ =
        .error (.valueError (name ++ ": The following SAM tags are invalid:\n" ++ lines errs)) := by
  have hmsg : ("  " ++ v ++ ": SAM tags must be two-character alphanumeric strings.")
      ∈ members.filterMap (fun p => validate_sam_tag strict p.2) := by
    refine List.mem_filterMap.mpr ⟨(n, v), hmem, ?_⟩
    unfold validate_sam_tag
    rw [not_tagRegexMatch_of_violatesClaimedShape hbad]
    simp
  refine ⟨members.filterMap (fun p => validate_sam_tag strict p.2), hmsg, ?_⟩
  have hne : members.filterMap (fun p => validate_sam_tag strict p.2) ≠ [] := by
    intro hnil
    rw [hnil] at hmsg
    exact (List.not_mem_nil _) hmsg
  rw [validate_enum_of_pairwise strict permit name members hnd,
    if_pos (List.length_pos.mpr hne)]

/-- Witness for C3 (amended) at the length-3 value "abc". -/
theorem claimed_bad_shape_reported_witness :
    ∃ errs : List String,
      ("  " ++ "abc" ++ ": SAM tags must be two-character alphanumeric strings.") ∈ errs ∧
      validate_sam_tag_enum true false ⟨"BadTag", true, true, [("XB", "abc")]⟩ =
        .error (.valueError ("BadTag: The following SAM tags are invalid:\n" ++ lines errs)) :=
  claimed_bad_shape_reported true false "BadTag" "XB" "abc" [("XB", "abc")]
    (by decide) (by decide) (by decide)

/-- Counterexample to claim C4 as stated: with members declared ZB = "1z",
AB = "1a" (both shape-invalid), the aggregate error lists "1z" before "1a" —
the declaration's definition order — whereas any ordering derived from a
sorted key over values or names would list "1a" first. -/
theorem insertion_order_not_sorted :
    validate_sam_tag_enum true false ⟨"BadTag", true, true, [("ZB", "1z"), ("AB", "1a")]⟩ =
      .error (.valueError "BadTag: The following SAM tags are invalid:\n  1z: SAM tags must be two-character alphanumeric strings.\n  1a: SAM tags must be two-character alphanumeric strings.") ∧
    validate_sam_tag_enum true false ⟨"BadTag", true, true, [("ZB", "1z"), ("AB", "1a")]⟩ ≠
      .error (.valueError "BadTag: The following SAM tags are invalid:\n  1a: SAM tags must be two-character alphanumeric strings.\n  1z: SAM tags must be two-character alphanumeric strings.") := by
  exact ⟨by decide, by decide⟩

/-- Claim C4 (amended): every rejected structurally-sound declaration fails
with a single aggregate error containing the declaration's name and the
per-violation messages in a deterministic order that is not a sorted key:
when no value is duplicated, the per-member messages follow the declaration's
member-definition order; when values are duplicated, the duplicate messages
follow first-occurrence order of the duplicated values (strictly increasing
first-occurrence index in the declared value list), each message carrying the
sorted member names of that value. -/
theorem failure_single_error_in_declaration_order (strict permit : Bool) (name : String)
    (members : List (String × String)) :
    (members.Pairwise (fun a b => a.2 ≠ b.2) →
      members.filterMap (fun p => validate_sam_tag strict p.2) ≠ [] →
      validate_sam_tag_enum strict permit ⟨name, true, true, members⟩ =
        .error (.valueError (name ++ ": The following SAM tags are invalid:\n" ++
          lines (members.filterMap (fun p => validate_sam_tag strict p.2))))) ∧
    (¬ members.Pairwise (fun a b => a.2 ≠ b.2) →
      ∃ dupVals : List String,
        (∀ w, w ∈ dupVals ↔ 1 < valueCount members w) ∧
        dupVals.Pairwise (fun a b =>
          (members.map (fun p => p.2)).indexOf a < (members.map (fun p => p.2)).indexOf b) ∧
        validate_sam_tag_enum strict permit ⟨name, true, true, members⟩ =
          .error (.valueError (name ++ ": The following SAM tags have duplicate values:\n" ++
            lines (dupVals.map (fun w =>
              "  " ++ joinSep ", " (sortStrings (namesForValue members w)) ++ ": '" ++ w ++ "'"))))) := by
  constructor
  · intro hnd hfail
    rw [validate_enum_of_pairwise strict permit name members hnd,
      if_pos (List.length_pos.mpr hfail)]
  · intro hnp
    rcases exists_dup_value_of_not_pairwise hnp with ⟨v, hv⟩
    refine ⟨(dedupFirst (members.map (fun p => p.2))).filter
        (fun w => decide (1 < valueCount members w)), ?_, ?_, ?_⟩
    · intro w
      rw [List.mem_filter]
      constructor
      · rintro ⟨_, h2⟩
        exact decide_eq_true_iff.mp h2
      · intro h
        exact ⟨mem_dedupFirst.mpr (mem_values_of_valueCount_pos (by omega)),
          decide_eq_true_iff.mpr h⟩
    · exact List.Pairwise.sublist (List.filter_sublist _) pairwise_indexOf_dedupFirst
    · rw [validate_enum_of_dup strict permit name members hv]
      have hmap : duplicateMessages members =
          ((dedupFirst (members.map (fun p => p.2))).filter
            (fun w => decide (1 < valueCount members w))).map (fun w =>
              "  " ++ joinSep ", " (sortStrings (namesForValue members w)) ++ ": '" ++ w ++ "'") := by
        unfold duplicateMessages
        exact filterMap_ite_eq_filter_map (fun w => 1 < valueCount members w) _ _
      rw [hmap]

/-- Witness for C4 (amended), exercising both branches: the per-member branch
at the counterexample's declaration and the duplicate branch at a declaration
whose values "xx" and "yy" are each duplicated. -/
theorem failure_single_error_in_declaration_order_witness :
    (validate_sam_tag_enum true false ⟨"BadTag", true, true, [("ZB", "1z"), ("AB", "1a")]⟩ =
      .error (.valueError ("BadTag: The following SAM tags are invalid:\n" ++
        lines ([("ZB", "1z"), ("AB", "1a")].filterMap (fun p => validate_sam_tag true p.2))))) ∧
    (∃ dupVals : List String,
      (∀ w, w ∈ dupVals ↔
        1 < valueCount [("XA", "xx"), ("XB", "yy"), ("XC", "xx"), ("XD", "yy")] w) ∧
      dupVals.Pairwise (fun a b =>
        ([("XA", "xx"), ("XB", "yy"), ("XC", "xx"), ("XD", "yy")].map (fun p => p.2)).indexOf a <
          ([("XA", "xx"), ("XB", "yy"), ("XC", "xx"), ("XD", "yy")].map (fun p => p.2)).indexOf b) ∧
      validate_sam_tag_enum true false
          ⟨"BadTag", true, true, [("XA", "xx"), ("XB", "yy"), ("XC", "xx"), ("XD", "yy")]⟩ =
        .error (.valueError ("BadTag: The following SAM tags have duplicate values:\n" ++
          lines (dupVals.map (fun w =>
            "  " ++ joinSep ", "
              (sortStrings (namesForValue [("XA", "xx"), ("XB", "yy"), ("XC", "xx"), ("XD", "yy")] w)) ++
              ": '" ++ w ++ "'"))))) :=
  ⟨(failure_single_error_in_declaration_order true false "BadTag"
      [("ZB", "1z"), ("AB", "1a")]).1 (by decide) (by decide),
    (failure_single_error_in_declaration_order true false "BadTag"
      [("XA", "xx"), ("XB", "yy"), ("XC", "xx"), ("XD", "yy")]).2 (by decide)⟩

/-- Claim C5: a declaration with a duplicated value fails with exactly one
DuplicateTagValue message per distinct duplicated value (`dupVals` has no
duplicates and `msgs` is its image), each message naming the full sorted set
of member names sharing that value. -/
theorem duplicate_value_reported_once_with_all_names (strict permit : Bool)
    (name : String) (members : List (String × String))
    (hdup : ∃ v, 1 < valueCount members v) :
    ∃ dupVals msgs : List String,
      dupVals.Nodup ∧
      (∀ w, w ∈ dupVals ↔ 1 < valueCount members w) ∧
      msgs = dupVals.map (fun w =>
        "  " ++ joinSep ", " (sortStrings (namesForValue members w)) ++ ": '" ++ w ++ "'") ∧
      validate_sam_tag_enum strict permit ⟨name, true, true, members⟩ =
        .error (.valueError (name ++ ": The following SAM tags have duplicate values:\n" ++
          lines msgs)) := by
  rcases hdup with ⟨v, hv⟩
  refine ⟨(dedupFirst (members.map (fun p => p.2))).filter
      (fun w => decide (1 < valueCount members w)),
    duplicateMessages members, ?_, ?_, ?_,
    validate_enum_of_dup strict permit name members hv⟩
  · exact List.Nodup.filter _ nodup_dedupFirst
  · intro w
    rw [List.mem_filter]
    constructor
    · rintro ⟨_, h2⟩
      exact decide_eq_true_iff.mp h2
    · intro h
      exact ⟨mem_dedupFirst.mpr (mem_values_of_valueCount_pos (by omega)),
        decide_eq_true_iff.mpr h⟩
  · unfold duplicateMessages
    exact filterMap_ite_eq_filter_map (fun w => 1 < valueCount members w) _ _

/-- Witness for C5 at a declaration with two members sharing the value
"xb". -/
theorem duplicate_value_reported_once_with_all_names_witness :
    ∃ dupVals msgs : List String,
      dupVals.Nodup ∧
      (∀ w, w ∈ dupVals ↔ 1 < valueCount [("XB", "xb"), ("XC", "xb")] w) ∧
      msgs = dupVals.map (fun w =>
        "  " ++ joinSep ", " (sortStrings (namesForValue [("XB", "xb"), ("XC", "xb")] w)) ++
          ": '" ++ w ++ "'") ∧
      validate_sam_tag_enum true false ⟨"BadTag", true, true, [("XB", "xb"), ("XC", "xb")]⟩ =
        .error (.valueError ("BadTag: The following SAM tags have duplicate values:\n" ++
          lines msgs)) :=
  duplicate_value_reported_once_with_all_names true false "BadTag"
    [("XB", "xb"), ("XC", "xb")] ⟨"xb", by decide⟩

/-- Claim C6: under strict mode "AA" is rejected with the convention message
while "xb" and "XG" are accepted, and with strict=False "AA" is accepted. -/
theorem strict_convention_examples :
    validate_sam_tag_enum true false ⟨"CustomTag", true, true, [("XB", "AA")]⟩ =
      .error (.valueError "CustomTag: The following SAM tags are invalid:\n  AA: Locally-defined SAM tags must be lowercase or start with X, Y, or Z.") ∧
    validate_sam_tag_enum true false ⟨"CustomTag", true, true, [("XB", "xb")]⟩ =
      .ok ⟨"CustomTag", true, true, [("XB", "xb")]⟩ ∧
    validate_sam_tag_enum true false ⟨"CustomTag", true, true, [("XG", "XG")]⟩ =
      .ok ⟨"CustomTag", true, true, [("XG", "XG")]⟩ ∧
    validate_sam_tag_enum false false ⟨"CustomTag", true, true, [("XB", "AA")]⟩ =
      .ok ⟨"CustomTag", true, true, [("XB", "AA")]⟩ := by
  exact ⟨by decide, by decide, by decide, by decide⟩

/-- Claim C7: a declaration whose values all match the two-character shape
exactly, none colliding with the standard catalog and none duplicated, is
accepted under non-strict mode. -/
theorem valid_declaration_accepted_nonstrict (permit : Bool) (name : String)
    (members : List (String × String))
    (hshape : ∀ m ∈ members, specShapeMatch m.2 = true)
    (hstd : ∀ m ∈ members, m.2 ∉ standardTagValues)
    (hnd : members.Pairwise (fun a b => a.2 ≠ b.2)) :
    validate_sam_tag_enum false permit ⟨name, true, true, members⟩ =
      .ok ⟨name, true, true, members⟩ := by
  rw [validate_enum_of_pairwise false permit name members hnd]
  have hnil : members.filterMap (fun p => validate_sam_tag false p.2) = [] := by
    rw [List.filterMap_eq_nil_iff]
    intro m hm
    unfold validate_sam_tag
    rw [tagRegexMatch_of_specShape (hshape m hm),
      contains_eq_false_iff.mpr (hstd m hm)]
    simp
  rw [hnil]
  simp

/-- Witness for C7 at a one-member declaration valued "AA" (shape-valid, not
standard, unconventional — accepted because strict is off). -/
theorem valid_declaration_accepted_nonstrict_witness :
    validate_sam_tag_enum false false ⟨"CustomTag", true, true, [("XB", "AA")]⟩ =
      .ok ⟨"CustomTag", true, true, [("XB", "AA")]⟩ :=
  valid_declaration_accepted_nonstrict false "CustomTag" [("XB", "AA")]
    (by decide) (by decide) (by decide)

/-- Claim C8: an input failing either structural probe (not an Enum, or not
mixing in str) is rejected with a TypeError-class error whose message is
independent of the members — none of the content checks runs, and the failure
is never a content violation. -/
theorem structural_error_precedes_content_checks (strict permit : Bool) (d : TagDecl)
    (h : d.isEnum = false ∨ d.isStr = false) :
    ∃ msg : String,
      validate_sam_tag_enum strict permit d = .error (.typeError msg) ∧
      ∀ ms : List (String × String),
        validate_sam_tag_enum strict permit ⟨d.name, d.isEnum, d.isStr, ms⟩ =
          .error (.typeError msg) := by
  rcases d with ⟨name, isEnum, isStr, members⟩
  simp only at h ⊢
  cases isEnum with
  | false =>
    exact ⟨name ++ ": The `sam_tag` decorator may only be applied to `Enum` subclasses.",
      by simp [validate_sam_tag_enum], fun ms => by simp [validate_sam_tag_enum]⟩
  | true =>
    have hs : isStr = false := by
      rcases h with h | h
      · exact absurd h (by simp)
      · exact h
    subst hs
    exact ⟨name ++ ": SAM tag classes should inherit from `StrEnum` or mix in `str`.",
      by simp [validate_sam_tag_enum], fun ms => by simp [validate_sam_tag_enum]⟩

/-- Witness for C8 at a non-str-valued declaration whose member would also
violate the shape rule: the failure is the structural TypeError, not a
content violation. -/
theorem structural_error_precedes_content_checks_witness :
    ∃ msg : String,
      validate_sam_tag_enum true false ⟨"BadTag", true, false, [("XB", "abc")]⟩ =
        .error (.typeError msg) ∧
      ∀ ms : List (String × String),
        validate_sam_tag_enum true false ⟨"BadTag", true, false, ms⟩ =
          .error (.typeError msg) :=
  structural_error_precedes_content_checks true false
    ⟨"BadTag", true, false, [("XB", "abc")]⟩ (Or.inr rfl)

/-- Claim C9: whenever validation succeeds, the returned declaration is the
input itself — the validator is the identity on valid declarations. -/
theorem validator_returns_input_unchanged (strict permit : Bool) (d r : TagDecl)
    (h : validate_sam_tag_enum strict permit d = .ok r) : r = d := by
  unfold validate_sam_tag_enum at h
  split at h
  · simp at h
  · split at h
    · simp at h
    · split at h
      · simp at h
      · dsimp only at h
        split at h
        · simp at h
        · injection h with h'
          exact h'.symm

/-- Witness for C9 at a concrete accepted declaration. -/
theorem validator_returns_input_unchanged_witness :
    (⟨"CustomTag", true, true, [("XB", "xb")]⟩ : TagDecl) =
      ⟨"CustomTag", true, true, [("XB", "xb")]⟩ :=
  validator_returns_input_unchanged true false
    ⟨"CustomTag", true, true, [("XB", "xb")]⟩
    ⟨"CustomTag", true, true, [("XB", "xb")]⟩ (by decide)

/-- Claim C10: a member yields the message of the first failing check in the
fixed order shape, standard-collision, strict-convention (the per-member
validator returns an `Option String`, so a member never contributes more than
one message, and an earlier failure is never additionally reported under a
later check). -/
theorem member_reports_first_failing_check (strict : Bool) (v : String) :
    (tagRegexMatch v = false →
      validate_sam_tag strict v =
        some ("  " ++ v ++ ": SAM tags must be two-character alphanumeric strings.")) ∧
    (tagRegexMatch v = true → v ∈ standardTagValues →
      validate_sam_tag strict v =
        some ("  " ++ v ++ ": Locally-defined SAM tags may not conflict with a predefined standard tag.")) ∧
    (tagRegexMatch v = true → v ∉ standardTagValues → strict = true →
      is_valid_local_tag v = false →
      validate_sam_tag strict v =
        some ("  " ++ v ++ ": Locally-defined SAM tags must be lowercase or start with X, Y, or Z.")) := by
  refine ⟨fun h1 => ?_, fun h1 h2 => ?_, fun h1 h2 h3 h4 => ?_⟩
  · unfold validate_sam_tag
    rw [h1]
    simp
  · unfold validate_sam_tag
    rw [h1, contains_eq_true_iff.mpr h2]
    simp
  · unfold validate_sam_tag
    rw [h1, contains_eq_false_iff.mpr h2, h3, h4]
    simp

/-- Witness for C10 at "AM", which violates both the standard-collision rule
and the strict convention: only the collision message (the earlier check) is
produced. -/
theorem member_reports_first_failing_check_witness :
    validate_sam_tag true "AM" =
      some ("  " ++ "AM" ++ ": Locally-defined SAM tags may not conflict with a predefined standard tag.") :=
  (member_reports_first_failing_check true "AM").2.1 (by decide) (by decide)

end Claims

end SamTags
